import Mathlib

/-!
Shallow embedding of the ledger classification and aggregation engine of
`src/app.py` (Flask condominium-management server).  The views `index`,
`dashboard` and `balanco` each normalize rows read from `Balanco.dbf`
(and, for the dashboard, from the monthly tables) and classify them with
an elif chain; this file reproduces those chains, the slot aggregation,
the fallback arithmetic and the error behaviour, with Python floats
modelled as rationals and Python exceptions as `Except`.
-/

namespace Condo

/-- Value of a field in a raw row, as handed over by `dbfread`:
`None`, a number, or a text. -/
inductive PyVal where
  | pnull : PyVal
  | pnum : ℚ → PyVal
  | pstr : String → PyVal
deriving DecidableEq

/-- A raw row is a finite mapping from field names to values
(`dict` with unique keys; the first binding wins on lookup). -/
abbrev Row := List (String × PyVal)

/-- `dict.get(k, d)`: the value bound to `k`, or the default `d`. -/
def rowGet (r : Row) (k : String) (d : PyVal) : PyVal :=
  match r.find? (fun p => p.1 == k) with
  | some p => p.2
  | none => d

/-- Python truthiness of a value: `None`, `0` and `""` are falsy. -/
def pyTruthy : PyVal → Bool
  | .pnull => false
  | .pnum q => decide (q ≠ 0)
  | .pstr s => decide (s ≠ "")

/-- Python `a or b`. -/
def pyOr (a b : PyVal) : PyVal := if pyTruthy a then a else b

/-- Leading characters dropped by Python `str.strip()`. -/
def stripLead (l : List Char) : List Char := l.dropWhile (fun c => c.isWhitespace)

/-- Python `str.strip()`: drop whitespace at both ends. -/
def pyStrip (s : String) : String :=
  String.mk ((stripLead (stripLead s.toList).reverse).reverse)

/-- Python `str.upper()` on one character, covering ASCII and the
Latin-1 letters used by the ledger labels. -/
def upChar (c : Char) : Char :=
  if 97 ≤ c.toNat ∧ c.toNat ≤ 122 then Char.ofNat (c.toNat - 32)
  else if 224 ≤ c.toNat ∧ c.toNat ≤ 254 ∧ c.toNat ≠ 247 then Char.ofNat (c.toNat - 32)
  else c

/-- Python `str.upper()`. -/
def pyUpper (s : String) : String := String.mk (s.toList.map upChar)

/-- Accumulate the decimal digits of a character list into a natural. -/
def natOfDigits : List Char → ℕ → ℕ
  | [], a => a
  | c :: cs, a => natOfDigits cs (a * 10 + (c.toNat - 48))

/-- Parse an unsigned decimal literal (digits, optional point, digits). -/
def parseUnsigned (cs : List Char) : Option ℚ :=
  let ip := cs.takeWhile (fun c => c.isDigit)
  let rest := cs.dropWhile (fun c => c.isDigit)
  match rest with
  | [] => if ip.isEmpty then none else some ((natOfDigits ip 0 : ℕ) : ℚ)
  | '.' :: fr =>
      if fr.all (fun c => c.isDigit) ∧ (ip ≠ [] ∨ fr ≠ []) then
        some (((natOfDigits ip 0 : ℕ) : ℚ) + ((natOfDigits fr 0 : ℕ) : ℚ) / ((10 : ℚ) ^ fr.length))
      else none
  | _ => none

/-- Model of the numeric strings accepted by Python `float(str)`:
optional surrounding whitespace, optional sign, plain decimal literal.
A string outside this language makes `float` raise `ValueError`. -/
def parseDec (s : String) : Option ℚ :=
  match (pyStrip s).toList with
  | '-' :: cs => (parseUnsigned cs).map (fun q => -q)
  | '+' :: cs => parseUnsigned cs
  | cs => parseUnsigned cs

/-- Python `float(v)`.  `None` raises `TypeError`; a non-numeric text
raises `ValueError`; both are modelled as `Except.error`. -/
def pyFloat : PyVal → Except Unit ℚ
  | .pnull => .error ()
  | .pnum q => .ok q
  | .pstr s =>
      match parseDec s with
      | some q => .ok q
      | none => .error ()

/-- Python `str`-only access: `.strip()`/`.upper()` on a non-string
raises `AttributeError`, modelled as `Except.error`. -/
def pyStr : PyVal → Except Unit String
  | .pstr s => .ok s
  | _ => .error ()

/-- The amount of a ledger row: `float(linha.get('valor', 0) or 0)`
(src/app.py lines 77, 199 and 308). -/
def valorOf (r : Row) : Except Unit ℚ :=
  pyFloat (pyOr (rowGet r "valor" (.pnum 0)) (.pnum 0))

/-- A ledger row after normalization: the match-ready trimmed uppercase
label and type, the trimmed original-case label, and the coerced amount. -/
structure NRow where
  conta : String
  contaRaw : String
  tipo : String
  valor : ℚ
deriving DecidableEq

/-- Normalization of one ledger row, as done at the top of each view
loop: `conta = linha.get('conta','').strip().upper()`,
`tipo = linha.get('tipo','').strip().upper()`,
`valor = float(linha.get('valor', 0) or 0)`. -/
def normRow (r : Row) : Except Unit NRow :=
  (pyStr (rowGet r "conta" (.pstr ""))).bind (fun c =>
  (pyStr (rowGet r "tipo" (.pstr ""))).bind (fun t =>
  (valorOf r).map (fun v => ⟨pyUpper (pyStrip c), pyStrip c, pyUpper (pyStrip t), v⟩)))

/-- Normalization of a row list; the first failing row aborts the view
loop with the exception. -/
def normRows : List Row → Except Unit (List NRow)
  | [] => .ok []
  | r :: rs => (normRow r).bind (fun n => (normRows rs).map (fun ns => n :: ns))

/-- Does `needle` occur at the head of `hay`? -/
def leadsWith : List Char → List Char → Bool
  | [], _ => true
  | _ :: _, [] => false
  | a :: as, b :: bs => (a == b) && leadsWith as bs

/-- Does `needle` occur anywhere in `hay`? -/
def occursIn (needle : List Char) : List Char → Bool
  | [] => leadsWith needle []
  | h :: t => leadsWith needle (h :: t) || occursIn needle t

/-- Python `needle in hay` for strings. -/
def strContains (hay needle : String) : Bool := occursIn needle.toList hay.toList

/-- `ler_dbf` (src/app.py lines 52-60): the DBF read is attempted and any
exception degrades to the empty row list. -/
def lerDbf (res : Except Unit (List Row)) : List Row :=
  match res with
  | .ok t => t
  | .error _ => []

/-- Summary slots accumulated by the `index` view loop
(src/app.py lines 69-72). -/
structure IState where
  total_receitas : ℚ
  total_despesas : ℚ
  saldo_anterior : ℚ
  saldo_final : ℚ
deriving DecidableEq

/-- All slots start at `0.0`. -/
def IState.init : IState := ⟨0, 0, 0, 0⟩

/-- Categories distinguishable by the `index` view's elif chain. -/
inductive ICat where
  | previousBalance | totalIncome | totalExpense | finalBalance
  | finalCandidate | unclassified
deriving DecidableEq

/-- The `index` view's classification chain (src/app.py lines 81-103),
read as a function from a normalized row to the category it matches;
`finalCandidate` is the conditional `tipo == 'TOTAL' and conta == 'TOTAL'`
rule whose effect depends on the current state. -/
def classifyIndex (r : NRow) : ICat :=
  if strContains r.conta "TSA" then .previousBalance
  else if r.tipo == "SUBTOTAL" && strContains r.conta "SALDO" && strContains r.conta "ANTERIOR" then .previousBalance
  else if strContains r.conta "TOTAL" && strContains r.conta "SALDO" && strContains r.conta "ANTERIOR" then .previousBalance
  else if r.tipo == "SUBTOTAL" && strContains r.conta "RECEITAS" then .totalIncome
  else if strContains r.conta "TOTAL" && strContains r.conta "RECEITAS" then .totalIncome
  else if r.tipo == "SUBTOTAL" && strContains r.conta "DESPESAS" then .totalExpense
  else if strContains r.conta "TOTAL" && strContains r.conta "DESPESAS" then .totalExpense
  else if r.tipo == "SALDO" && strContains r.conta "FINAL" then .finalBalance
  else if r.tipo == "TOTAL" && r.conta == "TOTAL" then .finalCandidate
  else .unclassified

/-- One iteration of the `index` view loop (src/app.py lines 74-103). -/
def indexStep (s : IState) (r : NRow) : IState :=
  if strContains r.conta "TSA" then { s with saldo_anterior := r.valor }
  else if r.tipo == "SUBTOTAL" && strContains r.conta "SALDO" && strContains r.conta "ANTERIOR" then { s with saldo_anterior := r.valor }
  else if strContains r.conta "TOTAL" && strContains r.conta "SALDO" && strContains r.conta "ANTERIOR" then { s with saldo_anterior := r.valor }
  else if r.tipo == "SUBTOTAL" && strContains r.conta "RECEITAS" then { s with total_receitas := r.valor }
  else if strContains r.conta "TOTAL" && strContains r.conta "RECEITAS" then { s with total_receitas := r.valor }
  else if r.tipo == "SUBTOTAL" && strContains r.conta "DESPESAS" then { s with total_despesas := r.valor }
  else if strContains r.conta "TOTAL" && strContains r.conta "DESPESAS" then { s with total_despesas := r.valor }
  else if r.tipo == "SALDO" && strContains r.conta "FINAL" then { s with saldo_final := r.valor }
  else if r.tipo == "TOTAL" && r.conta == "TOTAL" then
    (if s.saldo_final = 0 then { s with saldo_final := r.valor } else s)
  else s

/-- The whole `index` view loop over already-normalized rows. -/
def indexAgg (ns : List NRow) : IState := ns.foldl indexStep IState.init

/-- The `index` view's fallback (src/app.py lines 106-107): if no row
left a nonzero final balance, derive it from the identity. -/
def indexResolveSF (s : IState) : ℚ :=
  if s.saldo_final = 0 then s.saldo_anterior + s.total_receitas - s.total_despesas
  else s.saldo_final

/-- Decimal digit characters of a natural number (fuel-indexed helper). -/
def natDigitsAux : ℕ → ℕ → List Char → List Char
  | 0, _, acc => acc
  | fuel + 1, n, acc =>
      if n < 10 then Char.ofNat (48 + n) :: acc
      else natDigitsAux fuel (n / 10) (Char.ofNat (48 + n % 10) :: acc)

/-- Decimal rendering of a natural number. -/
def natStr (n : ℕ) : String := String.mk (natDigitsAux (n + 1) n [])

/-- Python `f"{q:.2f}"`: fixed two-decimal rendering. -/
def fmt2 (q : ℚ) : String :=
  let n := (round (|q| * 100)).toNat
  (if q < 0 then "-" else "") ++ natStr (n / 100) ++ "." ++
    (if n % 100 < 10 then "0" else "") ++ natStr (n % 100)

/-- The `resumo` mapping rendered by the `index` view
(src/app.py lines 109-114). -/
structure Resumo where
  total_receitas : String
  total_despesas : String
  saldo_anterior : String
  saldo_final : String
deriving DecidableEq

/-- The all-zero summary substituted when the `index` view's `try`
block fails (src/app.py lines 119-124). -/
def zeroResumo : Resumo := ⟨"0.00", "0.00", "0.00", "0.00"⟩

/-- The `index` view (src/app.py lines 62-126): normalize and aggregate
the rows inside a `try`; any exception yields the all-zero summary. -/
def indexView (rows : List Row) : Resumo :=
  match normRows rows with
  | .ok ns =>
      let s := indexAgg ns
      ⟨fmt2 s.total_receitas, fmt2 s.total_despesas, fmt2 s.saldo_anterior,
        fmt2 (indexResolveSF s)⟩
  | .error _ => zeroResumo

/-- Slots accumulated by the `balanco` view loop
(src/app.py lines 294-303). -/
structure BState where
  despesas : List (String × ℚ)
  total_despesas : ℚ
  total_receitas : ℚ
  quotas_normais : ℚ
  quotas_extras : ℚ
  juros : ℚ
  saldo_anterior_total : ℚ
  deposito_ordem : ℚ
  numerario_caixa : ℚ
  saldo_final : ℚ
deriving DecidableEq

/-- All `balanco` slots start empty/zero. -/
def BState.init : BState := ⟨[], 0, 0, 0, 0, 0, 0, 0, 0, 0⟩

/-- Categories assigned by the `balanco` view's elif chain. -/
inductive BCat where
  | expenseItem | previousBalance | depositOrdem | numerarioCaixa
  | totalExpense | quotasNormais | quotasExtras | juros
  | totalIncome | finalBalance | unclassified
deriving DecidableEq

/-- The `balanco` view's classification chain (src/app.py lines 311-337),
read as a function from a normalized row to the category it matches. -/
def classifyBalanco (r : NRow) : BCat :=
  if r.tipo == "DESPESA" then .expenseItem
  else if strContains r.conta "TSA" then .previousBalance
  else if r.tipo == "SUBTOTAL" && strContains r.conta "SALDO" && strContains r.conta "ANTERIOR" then .previousBalance
  else if strContains r.conta "DEPÓSITO ORDEM" || strContains r.conta "DEPOSITO ORDEM" then .depositOrdem
  else if strContains r.conta "NUMERÁRIO CAIXA" || strContains r.conta "NUMERARIO CAIXA" then .numerarioCaixa
  else if r.tipo == "SUBTOTAL" && strContains r.conta "DESPESAS" then .totalExpense
  else if strContains r.conta "QUOTAS NORMAIS" then .quotasNormais
  else if strContains r.conta "QUOTAS EXTRAS" then .quotasExtras
  else if strContains r.conta "JUROS" && r.tipo == "RECEITA" then .juros
  else if r.tipo == "SUBTOTAL" && strContains r.conta "RECEITAS" then .totalIncome
  else if r.tipo == "SALDO" && strContains r.conta "FINAL" then .finalBalance
  else .unclassified

/-- A priority-ordered classification rule: a predicate on the
normalized row and the category awarded on a match. -/
structure BRule where
  pred : NRow → Bool
  cat : BCat

/-- First-match-wins evaluation of a priority-ordered rule table. -/
def firstMatch : List BRule → NRow → BCat
  | [], _ => .unclassified
  | rule :: rest, r => if rule.pred r then rule.cat else firstMatch rest r

/-- The `balanco` view's rules, in the order the elif chain checks them. -/
def balancoRules : List BRule :=
  [ ⟨fun r => r.tipo == "DESPESA", .expenseItem⟩
  , ⟨fun r => strContains r.conta "TSA", .previousBalance⟩
  , ⟨fun r => r.tipo == "SUBTOTAL" && strContains r.conta "SALDO" && strContains r.conta "ANTERIOR", .previousBalance⟩
  , ⟨fun r => strContains r.conta "DEPÓSITO ORDEM" || strContains r.conta "DEPOSITO ORDEM", .depositOrdem⟩
  , ⟨fun r => strContains r.conta "NUMERÁRIO CAIXA" || strContains r.conta "NUMERARIO CAIXA", .numerarioCaixa⟩
  , ⟨fun r => r.tipo == "SUBTOTAL" && strContains r.conta "DESPESAS", .totalExpense⟩
  , ⟨fun r => strContains r.conta "QUOTAS NORMAIS", .quotasNormais⟩
  , ⟨fun r => strContains r.conta "QUOTAS EXTRAS", .quotasExtras⟩
  , ⟨fun r => strContains r.conta "JUROS" && r.tipo == "RECEITA", .juros⟩
  , ⟨fun r => r.tipo == "SUBTOTAL" && strContains r.conta "RECEITAS", .totalIncome⟩
  , ⟨fun r => r.tipo == "SALDO" && strContains r.conta "FINAL", .finalBalance⟩ ]

/-- Effect of one category on the `balanco` slots. -/
def applyB (s : BState) (r : NRow) : BCat → BState
  | .expenseItem => { s with despesas := s.despesas ++ [(r.contaRaw, r.valor)] }
  | .previousBalance => { s with saldo_anterior_total := r.valor }
  | .depositOrdem => { s with deposito_ordem := r.valor }
  | .numerarioCaixa => { s with numerario_caixa := r.valor }
  | .totalExpense => { s with total_despesas := r.valor }
  | .quotasNormais => { s with quotas_normais := r.valor }
  | .quotasExtras => { s with quotas_extras := r.valor }
  | .juros => { s with juros := r.valor }
  | .totalIncome => { s with total_receitas := r.valor }
  | .finalBalance => { s with saldo_final := r.valor }
  | .unclassified => s

/-- One iteration of the `balanco` view loop (src/app.py lines 305-337). -/
def balancoStep (s : BState) (r : NRow) : BState :=
  if r.tipo == "DESPESA" then { s with despesas := s.despesas ++ [(r.contaRaw, r.valor)] }
  else if strContains r.conta "TSA" then { s with saldo_anterior_total := r.valor }
  else if r.tipo == "SUBTOTAL" && strContains r.conta "SALDO" && strContains r.conta "ANTERIOR" then { s with saldo_anterior_total := r.valor }
  else if strContains r.conta "DEPÓSITO ORDEM" || strContains r.conta "DEPOSITO ORDEM" then { s with deposito_ordem := r.valor }
  else if strContains r.conta "NUMERÁRIO CAIXA" || strContains r.conta "NUMERARIO CAIXA" then { s with numerario_caixa := r.valor }
  else if r.tipo == "SUBTOTAL" && strContains r.conta "DESPESAS" then { s with total_despesas := r.valor }
  else if strContains r.conta "QUOTAS NORMAIS" then { s with quotas_normais := r.valor }
  else if strContains r.conta "QUOTAS EXTRAS" then { s with quotas_extras := r.valor }
  else if strContains r.conta "JUROS" && r.tipo == "RECEITA" then { s with juros := r.valor }
  else if r.tipo == "SUBTOTAL" && strContains r.conta "RECEITAS" then { s with total_receitas := r.valor }
  else if r.tipo == "SALDO" && strContains r.conta "FINAL" then { s with saldo_final := r.valor }
  else s

/-- The whole `balanco` view loop over already-normalized rows. -/
def balancoAgg (ns : List NRow) : BState := ns.foldl balancoStep BState.init

/-- Previous-balance breakdown rendered by `balanco`
(src/app.py lines 340-345). -/
structure SaldoAnterior where
  deposito_poupanca : ℚ
  deposito_ordem : ℚ
  numerario_caixa : ℚ
  total : ℚ
deriving DecidableEq

/-- Income breakdown rendered by `balanco` (src/app.py lines 348-353). -/
structure ReceitasDetalhes where
  quotas_normais : ℚ
  quotas_extras : ℚ
  juros : ℚ
  total : ℚ
deriving DecidableEq

/-- Everything the `balanco` view hands to its template
(src/app.py lines 361-368). -/
structure BOut where
  despesas : List (String × ℚ)
  total_despesas : ℚ
  saldo_anterior : SaldoAnterior
  receitas : ReceitasDetalhes
  saldo_final : ℚ
  total_debitos : ℚ
  total_creditos : ℚ
deriving DecidableEq

/-- The `balanco` view's final arithmetic (src/app.py lines 339-359):
credits first, then the final-balance fallback, then debits. -/
def balancoResolve (s : BState) : BOut :=
  let total_creditos := s.saldo_anterior_total + s.total_receitas
  let sf := if s.saldo_final = 0 then total_creditos - s.total_despesas else s.saldo_final
  let total_debitos := s.total_despesas + sf
  { despesas := s.despesas
  , total_despesas := s.total_despesas
  , saldo_anterior := ⟨0, s.deposito_ordem, s.numerario_caixa, s.saldo_anterior_total⟩
  , receitas := ⟨s.quotas_normais, s.quotas_extras, s.juros, s.total_receitas⟩
  , saldo_final := sf
  , total_debitos := total_debitos
  , total_creditos := total_creditos }

/-- The `balanco` view (src/app.py lines 288-368).  It has no `try`
block: a normalization error propagates to the caller. -/
def balancoView (rows : List Row) : Except Unit BOut :=
  (normRows rows).map (fun ns => balancoResolve (balancoAgg ns))

/-- The fixed month-field order of the dashboard
(src/app.py lines 163-164). -/
def meses : List String :=
  ["jan", "fev", "mar", "abr", "mai", "jun", "jul", "ago", "set", "out", "nov", "dez"]

/-- One month value of a row: `float(linha.get(mes, 0) or 0)`. -/
def monthVal (r : Row) (m : String) : Except Unit ℚ :=
  pyFloat (pyOr (rowGet r m (.pnum 0)) (.pnum 0))

/-- The month values of a row over a month-field list, in order. -/
def monthValsAux (r : Row) : List String → Except Unit (List ℚ)
  | [] => .ok []
  | m :: ms => (monthVal r m).bind (fun q => (monthValsAux r ms).map (fun qs => q :: qs))

/-- The ordered January-to-December 12-value sequence of a row
(src/app.py lines 171, 178 and 184). -/
def monthVals (r : Row) : Except Unit (List ℚ) := monthValsAux r meses

/-- The trimmed entity label of a monthly-income row:
`linha.get('fraccao', '').strip()` (src/app.py lines 169 and 176). -/
def fracOf (r : Row) : Except Unit String :=
  (pyStr (rowGet r "fraccao" (.pstr ""))).map pyStrip

/-- Entity-to-series mapping with Python `dict` update semantics:
an existing key keeps its position and gets the new value, a new key
is appended at the end. -/
def dictInsert : List (String × List ℚ) → String → List ℚ → List (String × List ℚ)
  | [], k, v => [(k, v)]
  | p :: ps, k, v => if p.1 = k then (k, v) :: ps else p :: dictInsert ps k v

/-- Lookup in the entity-to-series mapping. -/
def dictLookup : List (String × List ℚ) → String → Option (List ℚ)
  | [], _ => none
  | p :: ps, k => if p.1 = k then some p.2 else dictLookup ps k

/-- The per-entity monthly series loop (src/app.py lines 167-171 and
174-178): every row whose trimmed label is non-empty and not `TOTAIS`
(case-insensitively) is mapped to its 12-value sequence. -/
def recFracoesOf : List Row → List (String × List ℚ) → Except Unit (List (String × List ℚ))
  | [], acc => .ok acc
  | r :: rs, acc =>
      (fracOf r).bind (fun f =>
        if f ≠ "" ∧ pyUpper f ≠ "TOTAIS" then
          (monthVals r).bind (fun vs => recFracoesOf rs (dictInsert acc f vs))
        else recFracoesOf rs acc)

/-- The normalized label of an expense-table row:
`linha.get('despesas', '').strip().upper()` (src/app.py line 183). -/
def despKeyOf (r : Row) : Except Unit String :=
  (pyStr (rowGet r "despesas" (.pstr ""))).map (fun s => pyUpper (pyStrip s))

/-- The expense-by-month series (src/app.py lines 181-188): the
12-value sequence of the first `TOTAIS` row of the expense table, or
twelve zeros when no such row exists. -/
def despList : List Row → Except Unit (List ℚ)
  | [] => .ok (List.replicate 12 0)
  | r :: rs =>
      (despKeyOf r).bind (fun k => if k = "TOTAIS" then monthVals r else despList rs)

/-- One iteration of the dashboard's balance loop
(src/app.py lines 196-213). -/
def dashStep (s : IState) (r : NRow) : IState :=
  if strContains r.conta "TSA" then { s with saldo_anterior := r.valor }
  else if r.tipo == "SUBTOTAL" && strContains r.conta "SALDO" && strContains r.conta "ANTERIOR" then { s with saldo_anterior := r.valor }
  else if r.tipo == "SUBTOTAL" && strContains r.conta "RECEITAS" then { s with total_receitas := r.valor }
  else if r.tipo == "SUBTOTAL" && strContains r.conta "DESPESAS" then { s with total_despesas := r.valor }
  else if r.tipo == "SALDO" && strContains r.conta "FINAL" then { s with saldo_final := r.valor }
  else if r.tipo == "TOTAL" && r.conta == "TOTAL" then
    (if s.saldo_final = 0 then { s with saldo_final := r.valor } else s)
  else s

/-- The dashboard's balance composition (src/app.py lines 215-225). -/
structure DashBal where
  saldo_anterior : ℚ
  total_receitas : ℚ
  total_despesas : ℚ
  saldo_corrente : ℚ
  saldo_final : ℚ
deriving DecidableEq

/-- The dashboard's balance fallback and composition
(src/app.py lines 216-225). -/
def dashResolve (s : IState) : DashBal :=
  let sf := if s.saldo_final = 0 then s.saldo_anterior + s.total_receitas - s.total_despesas
            else s.saldo_final
  ⟨s.saldo_anterior, s.total_receitas, s.total_despesas,
    s.total_receitas - s.total_despesas, sf⟩

/-- Everything the dashboard hands to its template; `balanco = none`
models the empty dict passed on failure (src/app.py lines 237-241). -/
structure DashPayload where
  rec_n : List (String × List ℚ)
  rec_e : List (String × List ℚ)
  despesas_mensais : List ℚ
  balanco : Option DashBal
deriving DecidableEq

/-- The `dashboard` view (src/app.py lines 153-241): the four loops run
inside one `try`; any exception degrades the whole payload to empty
maps, an empty series and an empty balance dict. -/
def dashboardView (rn re dp bal : List Row) : DashPayload :=
  match (recFracoesOf rn []).bind (fun a =>
        (recFracoesOf re []).bind (fun b =>
        (despList dp).bind (fun dm =>
        (normRows bal).map (fun ns =>
          (⟨a, b, dm, some (dashResolve (ns.foldl dashStep IState.init))⟩ : DashPayload))))) with
  | .ok p => p
  | .error _ => ⟨[], [], [], none⟩

/-- Effect of one category on the `index` summary slots;
`finalCandidate` only fires while the final-balance slot is zero. -/
def applyI (s : IState) (r : NRow) : ICat → IState
  | .previousBalance => { s with saldo_anterior := r.valor }
  | .totalIncome => { s with total_receitas := r.valor }
  | .totalExpense => { s with total_despesas := r.valor }
  | .finalBalance => { s with saldo_final := r.valor }
  | .finalCandidate => if s.saldo_final = 0 then { s with saldo_final := r.valor } else s
  | .unclassified => s

/-- The three rows of the spec's balance-identity example. -/
def c1rows : List Row :=
  [ [("conta", .pstr "TSA"), ("tipo", .pstr "SUBTOTAL"), ("valor", .pnum 100)]
  , [("conta", .pstr "TOTAL RECEITAS"), ("tipo", .pstr "TOTAL"), ("valor", .pnum 50)]
  , [("conta", .pstr "TOTAL DESPESAS"), ("tipo", .pstr "TOTAL"), ("valor", .pnum 30)] ]

/-- A raw row of type `DESPESA` whose label contains `TSA`. -/
def c2row : Row :=
  [("conta", .pstr "TSA"), ("tipo", .pstr "DESPESA"), ("valor", .pnum 5)]

/-- The normalized form of `c2row`. -/
def c2nrow : NRow := ⟨"TSA", "TSA", "DESPESA", 5⟩

/-- A raw row whose amount field holds a non-numeric text. -/
def c3badRow : Row :=
  [("conta", .pstr "X"), ("tipo", .pstr "Y"), ("valor", .pstr "ABC")]

/-- A normalized total-income row valued 50. -/
def inc50 : NRow := ⟨"TOTAL RECEITAS", "TOTAL RECEITAS", "TOTAL", 50⟩

/-- A normalized total-income row valued 80. -/
def inc80 : NRow := ⟨"TOTAL RECEITAS", "TOTAL RECEITAS", "TOTAL", 80⟩

/-- A normalized generic-total row valued 10. -/
def tot10 : NRow := ⟨"TOTAL", "TOTAL", "TOTAL", 10⟩

/-- A normalized generic-total row valued 20. -/
def tot20 : NRow := ⟨"TOTAL", "TOTAL", "TOTAL", 20⟩

/-- A monthly-income row with a valid entity label whose January value
holds a non-numeric text. -/
def c7badRow : Row := [("fraccao", .pstr "A"), ("jan", .pstr "X")]

/-- A binary floating-point number of value `m * 2^e`.  The amounts the
program computes with are Python floats, i.e. IEEE-754 binary64; this
refines the exact-rational idealization used elsewhere by making the
53-bit rounding of every arithmetic operation explicit. -/
structure FP where
  m : ℤ
  e : ℤ
deriving DecidableEq

/-- The exact rational value of a floating-point number. -/
def fpVal (x : FP) : ℚ := (x.m : ℚ) * (2 : ℚ) ^ x.e

/-- Number of binary digits of a natural number (fuel-indexed). -/
def natBits : ℕ → ℕ → ℕ
  | 0, _ => 0
  | f + 1, n => if n = 0 then 0 else natBits f (n / 2) + 1

/-- Round `M * 2^e` to 53 significant bits, to nearest, ties to even —
the rounding binary64 applies to every arithmetic result (values in
the normal range; a mantissa that already fits is kept unchanged). -/
def fpRound (M : ℤ) (e : ℤ) : FP :=
  if M.natAbs < 2 ^ 53 then ⟨M, e⟩
  else
    let n := M.natAbs
    let s := natBits 200 n - 53
    let q0 := n / 2 ^ s
    let r := n % 2 ^ s
    let half := 2 ^ (s - 1)
    let q : ℕ := if half < r ∨ (r = half ∧ q0 % 2 = 1) then q0 + 1 else q0
    if M < 0 then ⟨-(q : ℤ), e + (s : ℤ)⟩ else ⟨(q : ℤ), e + (s : ℤ)⟩

/-- IEEE-754 binary64 addition on in-range values: the exact sum,
rounded once. -/
def fpAdd (a b : FP) : FP :=
  fpRound (a.m * 2 ^ (a.e - min a.e b.e).toNat + b.m * 2 ^ (b.e - min a.e b.e).toNat)
    (min a.e b.e)

/-- IEEE-754 binary64 subtraction: `a - b = a + (-b)`, exactly rounded
like the addition. -/
def fpSub (a b : FP) : FP := fpAdd a ⟨-b.m, b.e⟩

/-- The four summary slots of the `balanco` view as the doubles the
program actually holds.  Aggregation only stores row amounts into the
slots unchanged (overwrite, no arithmetic), so any slot values of this
shape arise from an input row sequence carrying those amounts. -/
structure BSlotsF where
  total_despesas : FP
  total_receitas : FP
  saldo_anterior_total : FP
  saldo_final : FP
deriving DecidableEq

/-- The final arithmetic of the `balanco` view (src/app.py lines
355-359) over binary64 doubles: `total_creditos = saldo_anterior_total
+ total_receitas`, then the fallback `saldo_final = total_creditos -
total_despesas` when `saldo_final == 0.0` (a double is zero iff its
mantissa is), then `total_debitos = total_despesas + saldo_final`,
each operation rounded as the program's floats are.  Returns the pair
`(total_debitos, total_creditos)`. -/
def balancoResolveFP (s : BSlotsF) : FP × FP :=
  let total_creditos := fpAdd s.saldo_anterior_total s.total_receitas
  let sf := if s.saldo_final.m = 0 then fpSub total_creditos s.total_despesas
            else s.saldo_final
  (fpAdd s.total_despesas sf, total_creditos)

/-- Aligned-mantissa comparison: decides equality of the values of two
floating-point numbers by integer arithmetic alone. -/
def fpValEqb (a b : FP) : Bool :=
  a.m * 2 ^ (a.e - min a.e b.e).toNat == b.m * 2 ^ (b.e - min a.e b.e).toNat

/-- Slot state with previous balance `0.1`, income `0.2` (the binary64
doubles nearest those decimals, exactly what `float` yields for them),
expenses `2^30`, and no final-balance row. -/
def c9slots : BSlotsF :=
  ⟨⟨1073741824, 0⟩, ⟨3602879701896397, -54⟩, ⟨3602879701896397, -55⟩, ⟨0, 0⟩⟩

/-- Reduction of `Except.bind` on a success. -/
theorem ebind_ok {α β : Type} (a : α) (f : α → Except Unit β) :
    (Except.ok a : Except Unit α).bind f = f a := rfl

/-- Reduction of `Except.bind` on a failure. -/
theorem ebind_err {α β : Type} (e : Unit) (f : α → Except Unit β) :
    (Except.error e : Except Unit α).bind f = .error e := rfl

/-- Reduction of `Except.map` on a success. -/
theorem emap_ok {α β : Type} (a : α) (f : α → β) :
    (Except.ok a : Except Unit α).map f = .ok (f a) := rfl

/-- Reduction of `Except.map` on a failure. -/
theorem emap_err {α β : Type} (e : Unit) (f : α → β) :
    (Except.error e : Except Unit α).map f = .error e := rfl

/-- The `balanco` elif chain applies exactly the effect of the single
category its classifier assigns, and it assigns `expenseItem` exactly
when the row type is `DESPESA`. -/
theorem balancoStep_eq (s : BState) (r : NRow) :
    balancoStep s r = applyB s r (classifyBalanco r) ∧
      (classifyBalanco r = BCat.expenseItem ↔ (r.tipo == "DESPESA") = true) := by
  unfold balancoStep classifyBalanco
  cases h1 : (r.tipo == "DESPESA") with
  | true => simp only [reduceIte]; exact ⟨rfl, by simp⟩
  | false =>
  simp only [Bool.false_eq_true, if_false]
  cases h2 : strContains r.conta "TSA" with
  | true => simp only [reduceIte]; exact ⟨rfl, by simp⟩
  | false =>
  simp only [Bool.false_eq_true, if_false]
  cases h3 : (r.tipo == "SUBTOTAL" && strContains r.conta "SALDO" && strContains r.conta "ANTERIOR") with
  | true => simp only [reduceIte]; exact ⟨rfl, by simp⟩
  | false =>
  simp only [Bool.false_eq_true, if_false]
  cases h4 : (strContains r.conta "DEPÓSITO ORDEM" || strContains r.conta "DEPOSITO ORDEM") with
  | true => simp only [reduceIte]; exact ⟨rfl, by simp⟩
  | false =>
  simp only [Bool.false_eq_true, if_false]
  cases h5 : (strContains r.conta "NUMERÁRIO CAIXA" || strContains r.conta "NUMERARIO CAIXA") with
  | true => simp only [reduceIte]; exact ⟨rfl, by simp⟩
  | false =>
  simp only [Bool.false_eq_true, if_false]
  cases h6 : (r.tipo == "SUBTOTAL" && strContains r.conta "DESPESAS") with
  | true => simp only [reduceIte]; exact ⟨rfl, by simp⟩
  | false =>
  simp only [Bool.false_eq_true, if_false]
  cases h7 : strContains r.conta "QUOTAS NORMAIS" with
  | true => simp only [reduceIte]; exact ⟨rfl, by simp⟩
  | false =>
  simp only [Bool.false_eq_true, if_false]
  cases h8 : strContains r.conta "QUOTAS EXTRAS" with
  | true => simp only [reduceIte]; exact ⟨rfl, by simp⟩
  | false =>
  simp only [Bool.false_eq_true, if_false]
  cases h9 : (strContains r.conta "JUROS" && r.tipo == "RECEITA") with
  | true => simp only [reduceIte]; exact ⟨rfl, by simp⟩
  | false =>
  simp only [Bool.false_eq_true, if_false]
  cases h10 : (r.tipo == "SUBTOTAL" && strContains r.conta "RECEITAS") with
  | true => simp only [reduceIte]; exact ⟨rfl, by simp⟩
  | false =>
  simp only [Bool.false_eq_true, if_false]
  cases h11 : (r.tipo == "SALDO" && strContains r.conta "FINAL") with
  | true => simp only [reduceIte]; exact ⟨rfl, by simp⟩
  | false =>
  simp only [Bool.false_eq_true, if_false]
  exact ⟨rfl, by simp⟩

/-- The `index` elif chain applies exactly the effect of the single
category its classifier assigns. -/
theorem indexStep_eq (s : IState) (r : NRow) :
    indexStep s r = applyI s r (classifyIndex r) := by
  unfold indexStep classifyIndex
  cases h1 : strContains r.conta "TSA" with
  | true => simp only [reduceIte]; rfl
  | false =>
  simp only [Bool.false_eq_true, if_false]
  cases h2 : (r.tipo == "SUBTOTAL" && strContains r.conta "SALDO" && strContains r.conta "ANTERIOR") with
  | true => simp only [reduceIte]; rfl
  | false =>
  simp only [Bool.false_eq_true, if_false]
  cases h3 : (strContains r.conta "TOTAL" && strContains r.conta "SALDO" && strContains r.conta "ANTERIOR") with
  | true => simp only [reduceIte]; rfl
  | false =>
  simp only [Bool.false_eq_true, if_false]
  cases h4 : (r.tipo == "SUBTOTAL" && strContains r.conta "RECEITAS") with
  | true => simp only [reduceIte]; rfl
  | false =>
  simp only [Bool.false_eq_true, if_false]
  cases h5 : (strContains r.conta "TOTAL" && strContains r.conta "RECEITAS") with
  | true => simp only [reduceIte]; rfl
  | false =>
  simp only [Bool.false_eq_true, if_false]
  cases h6 : (r.tipo == "SUBTOTAL" && strContains r.conta "DESPESAS") with
  | true => simp only [reduceIte]; rfl
  | false =>
  simp only [Bool.false_eq_true, if_false]
  cases h7 : (strContains r.conta "TOTAL" && strContains r.conta "DESPESAS") with
  | true => simp only [reduceIte]; rfl
  | false =>
  simp only [Bool.false_eq_true, if_false]
  cases h8 : (r.tipo == "SALDO" && strContains r.conta "FINAL") with
  | true => simp only [reduceIte]; rfl
  | false =>
  simp only [Bool.false_eq_true, if_false]
  cases h9 : (r.tipo == "TOTAL" && r.conta == "TOTAL") with
  | true => simp only [reduceIte]; rfl
  | false =>
  simp only [Bool.false_eq_true, if_false]
  rfl

/-- The expense entries accumulated by the `balanco` chain grow exactly
on `DESPESA` rows, by appending at the end. -/
theorem balancoStep_despesas (s : BState) (r : NRow) :
    (balancoStep s r).despesas =
      if (r.tipo == "DESPESA") = true then s.despesas ++ [(r.contaRaw, r.valor)]
      else s.despesas := by
  obtain ⟨hstep, hiff⟩ := balancoStep_eq s r
  rw [hstep]
  by_cases h : (r.tipo == "DESPESA") = true
  · rw [if_pos h, hiff.mpr h]
    rfl
  · rw [if_neg h]
    cases hc : classifyBalanco r with
    | expenseItem => exact absurd (hiff.mp hc) h
    | previousBalance => rfl
    | depositOrdem => rfl
    | numerarioCaixa => rfl
    | totalExpense => rfl
    | quotasNormais => rfl
    | quotasExtras => rfl
    | juros => rfl
    | totalIncome => rfl
    | finalBalance => rfl
    | unclassified => rfl

/-- A key is present after a dict update iff it is the updated key or
was already present. -/
theorem dictLookup_isSome_insert (d : List (String × List ℚ)) (k : String) (v : List ℚ)
    (k' : String) :
    (dictLookup (dictInsert d k v) k').isSome = true ↔
      (k' = k ∨ (dictLookup d k').isSome = true) := by
  induction d with
  | nil =>
      simp only [dictInsert, dictLookup]
      by_cases h : k = k'
      · simp [h]
      · rw [if_neg h]
        simp only [Option.isSome_none, Bool.false_eq_true, or_false, false_iff]
        exact fun hk => h hk.symm
  | cons p ps ih =>
      simp only [dictInsert]
      by_cases hp : p.1 = k
      · simp only [if_pos hp, dictLookup]
        by_cases hk : k = k'
        · simp [hk]
        · rw [if_neg hk, if_neg (by rw [hp]; exact hk)]
          constructor
          · exact Or.inr
          · rintro (h' | hs)
            · exact absurd h'.symm hk
            · exact hs
      · simp only [if_neg hp, dictLookup]
        by_cases hk : p.1 = k'
        · simp [hk]
        · rw [if_neg hk, if_neg hk]
          exact ih

/-- Every entry of a dict update is the inserted pair or an original
entry. -/
theorem mem_dictInsert (d : List (String × List ℚ)) (k : String) (v : List ℚ)
    (kv : String × List ℚ) (h : kv ∈ dictInsert d k v) : kv = (k, v) ∨ kv ∈ d := by
  induction d with
  | nil => simpa [dictInsert] using h
  | cons p ps ih =>
      by_cases hp : p.1 = k
      · rw [dictInsert, if_pos hp] at h
        rcases List.mem_cons.mp h with h1 | h1
        · exact Or.inl h1
        · exact Or.inr (List.mem_cons_of_mem _ h1)
      · rw [dictInsert, if_neg hp] at h
        rcases List.mem_cons.mp h with h1 | h1
        · exact Or.inr (h1 ▸ List.mem_cons_self _ _)
        · rcases ih h1 with h2 | h2
          · exact Or.inl h2
          · exact Or.inr (List.mem_cons_of_mem _ h2)

/-- Keys of the per-entity series map built by the dashboard loop: a
label is present in the result iff it was already in the accumulator or
some row carries it, non-empty and not `TOTAIS`. -/
theorem recFracoes_keys (rows : List Row) : ∀ (acc d : List (String × List ℚ)),
    recFracoesOf rows acc = .ok d → ∀ k : String,
    ((dictLookup d k).isSome = true ↔
      ((dictLookup acc k).isSome = true ∨
        ∃ r ∈ rows, fracOf r = .ok k ∧ k ≠ "" ∧ pyUpper k ≠ "TOTAIS")) := by
  induction rows with
  | nil =>
      intro acc d h k
      rw [recFracoesOf] at h
      cases h
      simp
  | cons r rs ih =>
      intro acc d h k
      rw [recFracoesOf] at h
      cases hf : fracOf r with
      | error e => rw [hf, ebind_err] at h; cases h
      | ok f =>
          rw [hf, ebind_ok] at h
          by_cases hcond : (f ≠ "" ∧ pyUpper f ≠ "TOTAIS")
          · rw [if_pos hcond] at h
            cases hm : monthVals r with
            | error e => rw [hm, ebind_err] at h; cases h
            | ok vs =>
                rw [hm, ebind_ok] at h
                rw [ih _ _ h k, dictLookup_isSome_insert]
                constructor
                · rintro ((rfl | hacc) | ⟨r', hr', hfr', hk1, hk2⟩)
                  · exact Or.inr ⟨r, List.mem_cons_self _ _, hf, hcond.1, hcond.2⟩
                  · exact Or.inl hacc
                  · exact Or.inr ⟨r', List.mem_cons_of_mem _ hr', hfr', hk1, hk2⟩
                · rintro (hacc | ⟨r', hr', hfr', hk1, hk2⟩)
                  · exact Or.inl (Or.inr hacc)
                  · rcases List.mem_cons.mp hr' with rfl | hr''
                    · rw [hf] at hfr'
                      cases hfr'
                      exact Or.inl (Or.inl rfl)
                    · exact Or.inr ⟨r', hr'', hfr', hk1, hk2⟩
          · rw [if_neg hcond] at h
            rw [ih _ _ h k]
            constructor
            · rintro (hacc | ⟨r', hr', hfr', hk1, hk2⟩)
              · exact Or.inl hacc
              · exact Or.inr ⟨r', List.mem_cons_of_mem _ hr', hfr', hk1, hk2⟩
            · rintro (hacc | ⟨r', hr', hfr', hk1, hk2⟩)
              · exact Or.inl hacc
              · rcases List.mem_cons.mp hr' with rfl | hr''
                · rw [hf] at hfr'
                  cases hfr'
                  exact absurd ⟨hk1, hk2⟩ hcond
                · exact Or.inr ⟨r', hr'', hfr', hk1, hk2⟩

/-- Every entry of the per-entity series map comes from the accumulator
or from a qualifying row together with its 12-value month sequence. -/
theorem recFracoes_mem (rows : List Row) : ∀ (acc d : List (String × List ℚ)),
    recFracoesOf rows acc = .ok d → ∀ kv ∈ d,
    (kv ∈ acc ∨ ∃ r ∈ rows, fracOf r = .ok kv.1 ∧ monthVals r = .ok kv.2 ∧
      kv.1 ≠ "" ∧ pyUpper kv.1 ≠ "TOTAIS") := by
  induction rows with
  | nil =>
      intro acc d h kv hkv
      rw [recFracoesOf] at h
      cases h
      exact Or.inl hkv
  | cons r rs ih =>
      intro acc d h kv hkv
      rw [recFracoesOf] at h
      cases hf : fracOf r with
      | error e => rw [hf, ebind_err] at h; cases h
      | ok f =>
          rw [hf, ebind_ok] at h
          by_cases hcond : (f ≠ "" ∧ pyUpper f ≠ "TOTAIS")
          · rw [if_pos hcond] at h
            cases hm : monthVals r with
            | error e => rw [hm, ebind_err] at h; cases h
            | ok vs =>
                rw [hm, ebind_ok] at h
                rcases ih _ _ h kv hkv with hacc | ⟨r', hr', hfr', hmr', hk1, hk2⟩
                · rcases mem_dictInsert _ _ _ _ hacc with rfl | hacc'
                  · exact Or.inr ⟨r, List.mem_cons_self _ _, hf, hm, hcond.1, hcond.2⟩
                  · exact Or.inl hacc'
                · exact Or.inr ⟨r', List.mem_cons_of_mem _ hr', hfr', hmr', hk1, hk2⟩
          · rw [if_neg hcond] at h
            rcases ih _ _ h kv hkv with hacc | ⟨r', hr', hfr', hmr', hk1, hk2⟩
            · exact Or.inl hacc
            · exact Or.inr ⟨r', List.mem_cons_of_mem _ hr', hfr', hmr', hk1, hk2⟩

/-- If no row of the expense table has the `TOTAIS` label, the
expense-by-month series is twelve zeros. -/
theorem despList_no_totais (rows : List Row)
    (h : ∀ r ∈ rows, ∃ s, despKeyOf r = .ok s ∧ s ≠ "TOTAIS") :
    despList rows = .ok (List.replicate 12 0) := by
  induction rows with
  | nil => rfl
  | cons r rs ih =>
      obtain ⟨s, hs, hne⟩ := h r (List.mem_cons_self _ _)
      rw [despList, hs, ebind_ok, if_neg hne]
      exact ih (fun r' hr' => h r' (List.mem_cons_of_mem _ hr'))

/-- C1, counterexample: on the spec's three example rows the only view
that computes cross-check totals, `balanco`, produces
`total_credits = total_debits = 100`, not the claimed 150: its chain
lacks the generic `TOTAL`-labelled income/expense rules, so the
`TOTAL RECEITAS`/`TOTAL DESPESAS` rows stay unclassified there. -/
theorem C1_counterexample :
    (balancoView c1rows).toOption.map (fun o => (o.total_creditos, o.total_debitos)) =
      some ((100 : ℚ), (100 : ℚ)) ∧ ((100 : ℚ), (100 : ℚ)) ≠ ((150 : ℚ), (150 : ℚ)) := by
  constructor
  · simp +decide [balancoView, c1rows, normRows, normRow, valorOf, rowGet, pyStr, pyFloat,
      pyOr, pyTruthy, pyStrip, stripLead, pyUpper, upChar, balancoAgg, balancoStep,
      balancoResolve, strContains, occursIn, leadsWith, ebind_ok, ebind_err, emap_ok,
      emap_err, Except.toOption]
  · norm_num

/-- C1, amended: on the rows
`[{conta:"TSA", tipo:"SUBTOTAL", valor:100}, {conta:"TOTAL RECEITAS",
tipo:"TOTAL", valor:50}, {conta:"TOTAL DESPESAS", tipo:"TOTAL",
valor:30}]` the `index` view produces `previous_balance=100`,
`total_income=50`, `total_expense=30`, `final_balance=120`, while the
`balanco` view classifies only the `TSA` row and produces
`total_income=0`, `total_expense=0`, `total_credits=100`,
`total_debits=100`. -/
theorem C1_amended :
    indexView c1rows = ⟨"50.00", "30.00", "100.00", "120.00"⟩ ∧
    (balancoView c1rows).toOption.map
        (fun o => (o.saldo_anterior.total, o.receitas.total, o.total_despesas,
          o.total_creditos, o.total_debitos)) =
      some ((100 : ℚ), 0, 0, 100, 100) := by
  constructor
  · simp +decide [indexView, c1rows, normRows, normRow, valorOf, rowGet, pyStr, pyFloat,
      pyOr, pyTruthy, pyStrip, stripLead, pyUpper, upChar, indexAgg, indexStep,
      indexResolveSF, strContains, occursIn, leadsWith, ebind_ok, ebind_err, emap_ok,
      emap_err, fmt2, natStr, natDigitsAux, round_eq, Int.toNat_ofNat]
    norm_num [natDigitsAux]
    decide
  · simp +decide [balancoView, c1rows, normRows, normRow, valorOf, rowGet, pyStr, pyFloat,
      pyOr, pyTruthy, pyStrip, stripLead, pyUpper, upChar, balancoAgg, balancoStep,
      balancoResolve, strContains, occursIn, leadsWith, ebind_ok, ebind_err, emap_ok,
      emap_err, Except.toOption]

/-- C2, counterexample: a row of type `DESPESA` whose label contains
`TSA` is classified `ExpenseItem` by the `balanco` chain, not
`PreviousBalance` — the `DESPESA` rule is checked before the `TSA`
rule, so the row lands in the expense list and leaves the
previous-balance slot at zero. -/
theorem C2_counterexample :
    classifyBalanco c2nrow = BCat.expenseItem ∧
    classifyBalanco c2nrow ≠ BCat.previousBalance ∧
    (balancoView [c2row]).toOption.map (fun o => (o.despesas, o.saldo_anterior.total)) =
      some ([("TSA", (5 : ℚ))], (0 : ℚ)) := by
  refine ⟨rfl, by decide, ?_⟩
  simp +decide [balancoView, c2row, normRows, normRow, valorOf, rowGet, pyStr, pyFloat,
    pyOr, pyTruthy, pyStrip, stripLead, pyUpper, upChar, balancoAgg, balancoStep,
    balancoResolve, strContains, occursIn, leadsWith, ebind_ok, ebind_err, emap_ok,
    emap_err, Except.toOption]

/-- C2, amended: the `balanco` classification is the first-match-wins
evaluation of a fixed priority-ordered rule table whose first rule is
`DESPESA → ExpenseItem` (then `TSA → PreviousBalance`, and so on); each
record gets the single category of its first matching rule, the loop
applies exactly that category's effect, and a record of type `DESPESA`
is always `ExpenseItem`, even when its label contains `TSA`. -/
theorem C2_amended (r : NRow) :
    classifyBalanco r = firstMatch balancoRules r ∧
    (∀ s : BState, balancoStep s r = applyB s r (classifyBalanco r)) ∧
    (r.tipo = "DESPESA" → classifyBalanco r = BCat.expenseItem) := by
  refine ⟨rfl, fun s => (balancoStep_eq s r).1, fun h => ?_⟩
  exact (balancoStep_eq BState.init r).2.mpr (by rw [h]; rfl)

/-- C2, witness: the amended theorem applied to the concrete
`DESPESA`-typed row whose label is `TSA`. -/
theorem C2_witness : classifyBalanco c2nrow = BCat.expenseItem :=
  (C2_amended c2nrow).2.2 rfl

/-- C3, counterexample: a non-numeric amount text is not coerced to
`0.0` — `float` raises, and the `balanco` view, having no `try` block,
surfaces the error to its caller. -/
theorem C3_counterexample :
    valorOf c3badRow = .error () ∧ balancoView [c3badRow] = .error () := by
  constructor
  · rfl
  · rfl

/-- C3, amended: an absent or null amount field (and the empty string,
which is falsy) is coerced to `0.0` with no error; a non-empty
non-numeric amount text makes `float` raise, and while the `index` and
`dashboard` views catch the error (degrading to the all-zero summary
and the empty payload), the `balanco` view does not, so the error
surfaces to its caller. -/
theorem C3_amended :
    (∀ r : Row, r.find? (fun p => p.1 == "valor") = none → valorOf r = .ok 0) ∧
    (∀ r : Row, rowGet r "valor" (.pnum 0) = .pnull → valorOf r = .ok 0) ∧
    (∀ r : Row, rowGet r "valor" (.pnum 0) = .pstr "" → valorOf r = .ok 0) ∧
    (∀ (r : Row) (s : String), rowGet r "valor" (.pnum 0) = .pstr s → s ≠ "" →
      parseDec s = none → valorOf r = .error ()) ∧
    indexView [c3badRow] = zeroResumo ∧
    dashboardView [] [] [] [c3badRow] = ⟨[], [], [], none⟩ := by
  refine ⟨fun r h => ?_, fun r h => ?_, fun r h => ?_, fun r s h hs hp => ?_, ?_, ?_⟩
  · rw [valorOf, rowGet, h]; rfl
  · rw [valorOf, h]; rfl
  · rw [valorOf, h]; rfl
  · rw [valorOf, h]
    rw [pyOr, pyTruthy, if_pos (by simpa using hs)]
    rw [pyFloat, hp]
  · rfl
  · rfl

/-- C3, witness: the amended theorem applied to the empty row, whose
amount field is absent. -/
theorem C3_witness : valorOf ([] : Row) = .ok 0 := C3_amended.1 [] rfl

/-- C4: slot aggregation is overwrite, not sum — two `TotalIncome` rows
valued 50 then 80 leave `total_income = 80`, and in general appending a
row classified `TotalIncome` overwrites the slot with that row's
amount; except that the generic `tipo == TOTAL`/`conta == TOTAL` final
balance rule is first-match-wins — rows valued 10 then 20 leave
`final_balance = 10`, and in general such a row never changes an
already-nonzero final-balance slot. -/
theorem C4_overwrite :
    (indexAgg [inc50, inc80]).total_receitas = 80 ∧
    ((indexAgg [tot10, tot20]).saldo_final = 10 ∧
      indexResolveSF (indexAgg [tot10, tot20]) = 10) ∧
    (∀ (ns : List NRow) (r : NRow), classifyIndex r = ICat.totalIncome →
      (indexAgg (ns ++ [r])).total_receitas = r.valor) ∧
    (∀ (ns : List NRow) (r : NRow), r.tipo = "TOTAL" → r.conta = "TOTAL" →
      (indexAgg ns).saldo_final ≠ 0 →
      (indexAgg (ns ++ [r])).saldo_final = (indexAgg ns).saldo_final) := by
  refine ⟨?_, ⟨?_, ?_⟩, fun ns r hc => ?_, fun ns r ht hc hnz => ?_⟩
  · simp +decide [indexAgg, indexStep, inc50, inc80, strContains, occursIn, leadsWith]
  · simp +decide [indexAgg, indexStep, tot10, tot20, strContains, occursIn, leadsWith]
  · simp +decide [indexAgg, indexStep, indexResolveSF, tot10, tot20, strContains,
      occursIn, leadsWith]
  · rw [indexAgg, List.foldl_append, List.foldl_cons, List.foldl_nil, indexStep_eq, hc]
    rfl
  · have hnz' : (List.foldl indexStep IState.init ns).saldo_final ≠ 0 := hnz
    rw [indexAgg, List.foldl_append, List.foldl_cons, List.foldl_nil, indexStep_eq]
    have hcl : classifyIndex r = ICat.finalCandidate := by
      obtain ⟨c, cr, t, v⟩ := r
      simp only at ht hc
      subst ht hc
      rfl
    rw [hcl, applyI, if_neg hnz']
    rfl

/-- C4, witness: the general overwrite clause applied to the two
concrete income rows. -/
theorem C4_witness : (indexAgg ([inc50] ++ [inc80])).total_receitas = (80 : ℚ) :=
  C4_overwrite.2.2.1 [inc50] inc80 rfl

/-- C5: the resolver of the `balanco` view derives
`final_balance = previous_balance + total_income - total_expense`
whenever the aggregated final balance is zero, and in every case
computes `total_credits = previous_balance + total_income` and
`total_debits = total_expense + final_balance`; the `index` view's
resolver applies the same fallback identity. -/
theorem C5_resolver :
    (∀ s : BState,
      (s.saldo_final = 0 →
        (balancoResolve s).saldo_final =
          s.saldo_anterior_total + s.total_receitas - s.total_despesas) ∧
      (balancoResolve s).total_creditos = s.saldo_anterior_total + s.total_receitas ∧
      (balancoResolve s).total_debitos =
        s.total_despesas + (balancoResolve s).saldo_final) ∧
    (∀ t : IState, t.saldo_final = 0 →
      indexResolveSF t = t.saldo_anterior + t.total_receitas - t.total_despesas) := by
  refine ⟨fun s => ⟨fun h => ?_, rfl, rfl⟩, fun t h => ?_⟩
  · rw [balancoResolve]
    simp only [if_pos h]
  · rw [indexResolveSF, if_pos h]

/-- C5, witness: the resolver theorem applied to a slot state with
previous balance 100, income 50, expenses 30 and no final balance. -/
theorem C5_witness :
    (balancoResolve ⟨[], 30, 50, 0, 0, 0, 100, 0, 0, 0⟩).saldo_final = 100 + 50 - 30 :=
  (C5_resolver.1 ⟨[], 30, 50, 0, 0, 0, 100, 0, 0, 0⟩).1 rfl

/-- Two-decimal rendering of zero. -/
theorem fmt2_zero : fmt2 0 = "0.00" := by
  have h : round ((|(0 : ℚ)| * 100)) = 0 := by
    rw [abs_zero, zero_mul, round_zero]
  simp +decide [fmt2, h, natStr, natDigitsAux]

/-- C6: an unreadable record source degrades to the empty row list, and
on the empty row list the `index` view yields the all-`"0.00"` summary,
the `balanco` view yields the all-zero balance sheet with an empty
expense detail list, and the `dashboard` view yields empty per-entity
series maps (with the all-zero expense series and all-zero balance
composition). -/
theorem C6_empty :
    lerDbf (.error ()) = [] ∧
    indexView [] = zeroResumo ∧
    balancoView [] = .ok ⟨[], 0, ⟨0, 0, 0, 0⟩, ⟨0, 0, 0, 0⟩, 0, 0, 0⟩ ∧
    dashboardView [] [] [] [] = ⟨[], [], List.replicate 12 0, some ⟨0, 0, 0, 0, 0⟩⟩ := by
  refine ⟨rfl, ?_, ?_, ?_⟩
  · simp [indexView, normRows, indexAgg, IState.init, indexResolveSF, zeroResumo, fmt2_zero]
  · simp [balancoView, normRows, balancoAgg, BState.init, balancoResolve, emap_ok]
  · simp [dashboardView, recFracoesOf, despList, normRows, dashResolve, IState.init,
      ebind_ok, emap_ok]

/-- C7, counterexample: a monthly-income row with the valid entity
label `A` but a non-numeric January value is not mapped with the value
read as `0.0` — `float` raises, and the whole dashboard payload
degrades to empty maps, so the label `A` appears nowhere. -/
theorem C7_counterexample :
    fracOf c7badRow = .ok "A" ∧
    recFracoesOf [c7badRow] [] = .error () ∧
    dashboardView [c7badRow] [] [] [] = ⟨[], [], [], none⟩ := by
  exact ⟨rfl, rfl, rfl⟩

/-- C7, amended: in the per-entity series map a label is present
exactly when some row carries it trimmed, non-empty and not
case-insensitively `TOTAIS`, and every map entry is the January-to-
December 12-value sequence of such a row (absent and null month fields
read as `0.0`; a non-numeric text month value raises instead, degrading
the whole dashboard); the expense-by-month series is the 12-value
sequence of the first `TOTAIS` row of the expense table, skipping
non-`TOTAIS` rows, and is twelve zeros when no such row exists. -/
theorem C7_series :
    (∀ (rows : List Row) (d : List (String × List ℚ)) (k : String),
      recFracoesOf rows [] = .ok d →
      ((dictLookup d k).isSome = true ↔
        ∃ r ∈ rows, fracOf r = .ok k ∧ k ≠ "" ∧ pyUpper k ≠ "TOTAIS")) ∧
    (∀ (rows : List Row) (d : List (String × List ℚ)) (kv : String × List ℚ),
      recFracoesOf rows [] = .ok d → kv ∈ d →
      ∃ r ∈ rows, fracOf r = .ok kv.1 ∧ monthVals r = .ok kv.2 ∧
        kv.1 ≠ "" ∧ pyUpper kv.1 ≠ "TOTAIS") ∧
    (∀ (r : Row) (m : String), rowGet r m (.pnum 0) = .pnull → monthVal r m = .ok 0) ∧
    (∀ (r : Row) (m : String), r.find? (fun p => p.1 == m) = none → monthVal r m = .ok 0) ∧
    (∀ (r : Row) (rs : List Row), despKeyOf r = .ok "TOTAIS" →
      despList (r :: rs) = monthVals r) ∧
    (∀ (r : Row) (rs : List Row) (s : String), despKeyOf r = .ok s → s ≠ "TOTAIS" →
      despList (r :: rs) = despList rs) ∧
    (∀ rows : List Row, (∀ r ∈ rows, ∃ s, despKeyOf r = .ok s ∧ s ≠ "TOTAIS") →
      despList rows = .ok (List.replicate 12 0)) := by
  refine ⟨fun rows d k h => ?_, fun rows d kv h hkv => ?_, fun r m h => ?_,
    fun r m h => ?_, fun r rs h => ?_, fun r rs s h hs => ?_, despList_no_totais⟩
  · rw [recFracoes_keys rows [] d h k]
    simp [dictLookup]
  · rcases recFracoes_mem rows [] d h kv hkv with hacc | hex
    · cases hacc
    · exact hex
  · rw [monthVal, h]; rfl
  · rw [monthVal, rowGet, h]; rfl
  · rw [despList, h, ebind_ok, if_pos rfl]
  · rw [despList, h, ebind_ok, if_neg hs]

/-- C7, witness: the no-`TOTAIS` clause applied to the empty expense
table. -/
theorem C7_witness : despList [] = .ok (List.replicate 12 0) :=
  C7_series.2.2.2.2.2.2 [] (by simp)

/-- The expense entries accumulated over a whole normalized row list
are exactly the `DESPESA` rows, in input order. -/
theorem balancoAgg_despesas_from (ns : List NRow) : ∀ s : BState,
    (ns.foldl balancoStep s).despesas =
      s.despesas ++ (ns.filter (fun r => r.tipo == "DESPESA")).map
        (fun r => (r.contaRaw, r.valor)) := by
  induction ns with
  | nil => intro s; simp
  | cons r rs ih =>
      intro s
      rw [List.foldl_cons, ih, balancoStep_despesas]
      by_cases h : (r.tipo == "DESPESA") = true
      · have hf : List.filter (fun x => x.tipo == "DESPESA") (r :: rs) =
            r :: List.filter (fun x => x.tipo == "DESPESA") rs := by
          rw [List.filter_cons, if_pos h]
        rw [if_pos h, hf, List.map_cons]
        simp [List.append_assoc]
      · have hf : List.filter (fun x => x.tipo == "DESPESA") (r :: rs) =
            List.filter (fun x => x.tipo == "DESPESA") rs := by
          rw [List.filter_cons, if_neg (by simpa using h)]
        rw [if_neg h, hf]

/-- C8: the expense detail list of the `balanco` view holds one
`(label, amount)` entry per row of type `DESPESA`, in exactly the input
row order, with no deduplication or merging, and the resolver passes it
through unchanged. -/
theorem C8_details :
    (∀ ns : List NRow, (balancoAgg ns).despesas =
      (ns.filter (fun r => r.tipo == "DESPESA")).map (fun r => (r.contaRaw, r.valor))) ∧
    (∀ s : BState, (balancoResolve s).despesas = s.despesas) := by
  refine ⟨fun ns => ?_, fun s => rfl⟩
  rw [balancoAgg, balancoAgg_despesas_from ns BState.init]
  rfl

/-- Aligned-mantissa comparison decides value equality of doubles. -/
theorem fpValEqb_iff (a b : FP) : fpValEqb a b = true ↔ fpVal a = fpVal b := by
  have key : ∀ x : FP, min a.e b.e ≤ x.e →
      fpVal x = ((x.m * 2 ^ (x.e - min a.e b.e).toNat : ℤ) : ℚ) * (2 : ℚ) ^ min a.e b.e := by
    intro x hx
    rw [fpVal]
    push_cast
    rw [← zpow_natCast (2 : ℚ) (x.e - min a.e b.e).toNat,
      Int.toNat_of_nonneg (sub_nonneg.mpr hx), mul_assoc,
      ← zpow_add₀ (two_ne_zero : (2 : ℚ) ≠ 0), sub_add_cancel]
  rw [fpValEqb, beq_iff_eq, key a (min_le_left _ _), key b (min_le_right _ _)]
  constructor
  · intro h; rw [h]
  · intro h
    exact_mod_cast mul_right_cancel₀ (zpow_ne_zero _ (two_ne_zero : (2 : ℚ) ≠ 0)) h

/-- Binary64 addition of integer-valued doubles whose exact sum fits in
53 bits incurs no rounding. -/
theorem fpAdd_int (m1 m2 : ℤ) (h : (m1 + m2).natAbs < 2 ^ 53) :
    fpAdd ⟨m1, 0⟩ ⟨m2, 0⟩ = ⟨m1 + m2, 0⟩ := by
  rw [fpAdd]
  simp only [min_self, sub_self, Int.toNat_zero, pow_zero, mul_one]
  rw [fpRound, if_pos h]

set_option maxRecDepth 8000 in
/-- C9, counterexample: with previous balance `0.1`, income `0.2` (as
the doubles the program holds) and expenses `2^30`, and the final
balance derived by the fallback, the binary64 arithmetic of
src/app.py lines 355-359 yields `total_debitos = 2516582 * 2^-23 ≈
0.2999999523` but `total_creditos = 5404319552844596 * 2^-54 ≈
0.3000000000000000444`: the rounded subtraction and re-addition do not
cancel, so `total_debits ≠ total_credits`. -/
theorem C9_counterexample :
    (balancoResolveFP c9slots).1 = ⟨2516582, -23⟩ ∧
    (balancoResolveFP c9slots).2 = ⟨5404319552844596, -54⟩ ∧
    fpVal (balancoResolveFP c9slots).1 ≠ fpVal (balancoResolveFP c9slots).2 := by
  refine ⟨by decide, by decide, fun h => ?_⟩
  have hb := (fpValEqb_iff (balancoResolveFP c9slots).1 (balancoResolveFP c9slots).2).mpr h
  have hf : fpValEqb (balancoResolveFP c9slots).1 (balancoResolveFP c9slots).2 = false := by
    decide
  rw [hf] at hb
  cases hb

/-- C9, amended: whenever the final balance is derived by the fallback,
the computed outputs satisfy `total_debits = total_credits` exactly for
inputs whose aggregated slots are integer-valued doubles of magnitude
at most `2^51` — there every operation of the resolver is exact, so the
subtraction and re-addition cancel; for general doubles the rounding
can break the identity, as the counterexample shows. -/
theorem C9_rounded (td tr sa : FP)
    (hte : td.e = 0) (htm : td.m.natAbs ≤ 2 ^ 51)
    (hre : tr.e = 0) (hrm : tr.m.natAbs ≤ 2 ^ 51)
    (hse : sa.e = 0) (hsm : sa.m.natAbs ≤ 2 ^ 51) :
    fpVal (balancoResolveFP ⟨td, tr, sa, ⟨0, 0⟩⟩).1 =
      fpVal (balancoResolveFP ⟨td, tr, sa, ⟨0, 0⟩⟩).2 := by
  obtain ⟨a, ae⟩ := td
  obtain ⟨b, be⟩ := tr
  obtain ⟨c, ce⟩ := sa
  simp only at hte hre hse htm hrm hsm
  subst hte hre hse
  have p53 : (9007199254740992 : ℕ) = 2 ^ 53 := by norm_num
  have p51 : (2 : ℕ) ^ 51 = 2251799813685248 := by norm_num
  rw [p51] at htm hrm hsm
  have h1 : fpAdd ⟨c, 0⟩ ⟨b, 0⟩ = ⟨c + b, 0⟩ := fpAdd_int c b (by rw [← p53]; omega)
  have h2 : fpAdd ⟨c + b, 0⟩ ⟨-a, 0⟩ = ⟨c + b + -a, 0⟩ :=
    fpAdd_int (c + b) (-a) (by rw [← p53]; omega)
  have h3 : fpAdd ⟨a, 0⟩ ⟨c + b + -a, 0⟩ = ⟨a + (c + b + -a), 0⟩ :=
    fpAdd_int a (c + b + -a) (by rw [← p53]; omega)
  rw [balancoResolveFP]
  simp only [fpSub, h1, h2, h3, if_pos]
  have h4 : a + (c + b + -a) = c + b := by ring
  rw [h4]

/-- C9, witness: the amended theorem on the spec's example amounts —
expenses 30, income 50, previous balance 100, all exactly
representable integers. -/
theorem C9_witness :
    fpVal (balancoResolveFP ⟨⟨30, 0⟩, ⟨50, 0⟩, ⟨100, 0⟩, ⟨0, 0⟩⟩).1 =
      fpVal (balancoResolveFP ⟨⟨30, 0⟩, ⟨50, 0⟩, ⟨100, 0⟩, ⟨0, 0⟩⟩).2 :=
  C9_rounded ⟨30, 0⟩ ⟨50, 0⟩ ⟨100, 0⟩ rfl (by decide) rfl (by decide) rfl (by decide)

/-- C10: the previous-balance breakdown field `deposito_poupanca` of
the `balanco` view is `0.0` for every input — no classification rule
or aggregation step ever assigns it. -/
theorem C10_deposito_poupanca (rows : List Row) (out : BOut)
    (h : balancoView rows = .ok out) :
    out.saldo_anterior.deposito_poupanca = 0 := by
  rw [balancoView] at h
  cases hn : normRows rows with
  | error e => rw [hn, emap_err] at h; cases h
  | ok ns =>
      rw [hn, emap_ok] at h
      injection h with h2
      rw [← h2]
      rfl

/-- C10, witness: the theorem applied to the empty row list. -/
theorem C10_witness :
    (balancoResolve (balancoAgg [])).saldo_anterior.deposito_poupanca = 0 :=
  C10_deposito_poupanca [] (balancoResolve (balancoAgg [])) rfl

end Condo
